import Mathlib

/-!
Shallow embedding of the repository trust engine of `src/core/validate.cpp`
(namespace `validate`): the hex codec (`bin2hex` / `hex2bin`), the Ed25519
verification wrappers, the signature-threshold check, the root-role update
state machine, and the v1 / v0.6 root-metadata parsers.

Machine integers are modelled as `Nat` with explicit truncation:
`% 2 ^ 32` for `unsigned int` arithmetic and `% 256` for `unsigned char`
assignments, exactly where the C++ source performs the corresponding
conversions.  Buffers are `List Nat` of byte values; fallible code returns
`Option` or `Except`.
-/

namespace Validate

/-- The `trust_error` hierarchy of `validate.cpp` as a sum type. -/
inductive TrustError where
  | thresholdError
  | roleMetadataError
  | rollbackError
  | roleFileError
  | specVersionError
deriving DecidableEq, Repr

/-! ## HexCodec: `bin2hex` (validate.cpp:322-353) -/

/-- The branchless nibble-to-hex-char formula of `bin2hex`:
`(unsigned char) (87U + v + (((v - 10U) >> 8) & ~38U))` with `unsigned int`
arithmetic modelled as `% 2 ^ 32` and the final `unsigned char` cast as
`% 256`.  (`~38U = 2 ^ 32 - 39`.) -/
def hexcharFormula (v : Nat) : Nat :=
  (87 + v + ((((v + (2 ^ 32 - 10)) % 2 ^ 32) >>> 8) &&& (2 ^ 32 - 39))) % 256

/-- One iteration of the `bin2hex` loop body: from byte `b` it computes
`c = bin[i] & 0xf`, `b' = bin[i] >> 4`, packs both hex chars into the
`unsigned int` `x` and stores `hex[2i] = (char) x`, `hex[2i+1] = (char)(x >> 8)`. -/
def bin2hexPair (b : Nat) : Nat × Nat :=
  let c := b &&& 0xf
  let hi := b >>> 4
  let x := (hexcharFormula c <<< 8) ||| hexcharFormula hi
  (x % 256, (x >>> 8) % 256)

/-- The characters written by the `bin2hex` loop, two per input byte. -/
def bin2hexChars : List Nat → List Nat
  | [] => []
  | b :: rest => (bin2hexPair b).1 :: (bin2hexPair b).2 :: bin2hexChars rest

/-- Model of `bin2hex` (validate.cpp:322-353).  `none` models the
`std::runtime_error` thrown when `bin_len >= SIZE_MAX / 2` or
`hex_maxlen < bin_len * 2`; otherwise the written hex characters are
returned (the trailing NUL optionally written past `2 * bin_len` when
`hex_maxlen > 2 * bin_len` is outside the returned character range). -/
def bin2hex (hexMaxlen : Nat) (bin : List Nat) : Option (List Nat) :=
  if bin.length ≥ (2 ^ 64 - 1) / 2 ∨ hexMaxlen < bin.length * 2 then none
  else some (bin2hexChars bin)

/-! ## HexCodec: `hex2bin` (validate.cpp:359-435) -/

/-- `c_num = c ^ 48U` truncated to `unsigned char`. -/
def cNum (c : Nat) : Nat := (c ^^^ 48) % 256

/-- `c_num0 = (c_num - 10U) >> 8` truncated to `unsigned char`. -/
def cNum0 (c : Nat) : Nat := (((cNum c + (2 ^ 32 - 10)) % 2 ^ 32) >>> 8) % 256

/-- `c_alpha = (c & ~32U) - 55U` truncated to `unsigned char`. -/
def cAlpha (c : Nat) : Nat := (((c &&& 0xdf) + (2 ^ 32 - 55)) % 2 ^ 32) % 256

/-- `c_alpha0 = ((c_alpha - 10U) ^ (c_alpha - 16U)) >> 8` truncated to
`unsigned char`. -/
def cAlpha0 (c : Nat) : Nat :=
  ((((cAlpha c + (2 ^ 32 - 10)) % 2 ^ 32) ^^^ ((cAlpha c + (2 ^ 32 - 16)) % 2 ^ 32)) >>> 8) % 256

/-- `c_val = (c_num0 & c_num) | (c_alpha0 & c_alpha)`. -/
def cVal (c : Nat) : Nat := (cNum0 c &&& cNum c) ||| (cAlpha0 c &&& cAlpha c)

/-- Outcome of the `hex2bin` main loop: `ret` and the `errno` value set by
the loop (34 = `ERANGE`), the bytes written to `bin`, the final `hex_pos`
and the final `state` flag. -/
structure H2bLoopOut where
  ret : Int
  err : Option Nat
  bin : List Nat
  hexPos : Nat
  state : Bool
deriving DecidableEq, Repr

/-- The C++ `ignore != NULL && strchr(ignore, c) != NULL` test. -/
def ignoreMem : Option (List Nat) → Nat → Bool
  | some ig, c => c ∈ ig
  | none, _ => false

/-- The `while (hex_pos < hex_len)` loop of `hex2bin`, translated on the
remaining input characters.  `state = false` is the C++ `state == 0U`
(expecting a high nibble); `cAcc` is `c_acc`. -/
def h2bLoop (binMaxlen : Nat) (ignore : Option (List Nat)) :
    List Nat → Nat → List Nat → Bool → Nat → H2bLoopOut
  | [], hexPos, binAcc, state, _cAcc => ⟨0, none, binAcc, hexPos, state⟩
  | c :: rest, hexPos, binAcc, state, cAcc =>
    if (cNum0 c ||| cAlpha0 c) = 0 then
      if state = false ∧ ignoreMem ignore c = true then
        h2bLoop binMaxlen ignore rest (hexPos + 1) binAcc state cAcc
      else ⟨0, none, binAcc, hexPos, state⟩
    else
      if binAcc.length ≥ binMaxlen then ⟨-1, some 34, binAcc, hexPos, state⟩
      else if state = false then
        h2bLoop binMaxlen ignore rest (hexPos + 1) binAcc true ((cVal c * 16) % 256)
      else
        h2bLoop binMaxlen ignore rest (hexPos + 1) (binAcc ++ [cAcc ||| cVal c]) false cAcc

/-- Result of `hex2bin`: the return value, the last `errno` value set by the
call (22 = `EINVAL`, 34 = `ERANGE`, `none` when untouched), the bytes written
into the destination buffer, the value stored through the `bin_len`
out-pointer, and the final `hex_pos` (what `*hex_end` would point at). -/
structure Hex2BinResult where
  ret : Int
  err : Option Nat
  bin : List Nat
  binLen : Nat
  hexPos : Nat
deriving DecidableEq, Repr

/-- Model of `hex2bin` (validate.cpp:359-435).  `hexEndRequested` tells
whether the caller passed a non-NULL `hex_end` out-pointer; `hex` is the
window of `hex_len` characters read from the input pointer. -/
def hex2bin (binMaxlen : Nat) (hex : List Nat) (ignore : Option (List Nat))
    (hexEndRequested : Bool) : Hex2BinResult :=
  let l := h2bLoop binMaxlen ignore hex 0 [] false 0
  let ret1 : Int := if l.state = true then -1 else l.ret
  let err1 : Option Nat := if l.state = true then some 22 else l.err
  let hexPos1 : Nat := if l.state = true then l.hexPos - 1 else l.hexPos
  let binPos : Nat := if ret1 ≠ 0 then 0 else l.bin.length
  let ret2 : Int := if hexEndRequested then ret1 else if hexPos1 ≠ hex.length then -1 else ret1
  let err2 : Option Nat :=
    if hexEndRequested then err1 else if hexPos1 ≠ hex.length then some 22 else err1
  ⟨ret2, err2, l.bin, binPos, hexPos1⟩

/-- Reference encoder written from the specification text: the lowercase
hexadecimal encoding of a byte sequence, high nibble first. -/
def specLowerHexChar (v : Nat) : Nat := if v < 10 then 48 + v else 87 + v

/-- Reference encoding (spec side), to be compared with `bin2hexChars`. -/
def specLowerHex : List Nat → List Nat
  | [] => []
  | b :: rest => specLowerHexChar (b / 16) :: specLowerHexChar (b % 16) :: specLowerHex rest

example : bin2hex 6 [0, 171, 255] = some [48, 48, 97, 98, 102, 102] := by decide
example : specLowerHex [0, 171, 255] = [48, 48, 97, 98, 102, 102] := by decide
example : (hex2bin 3 [48, 48, 97, 98, 102, 102] none false).bin = [0, 171, 255] := by decide
example : (hex2bin 3 [48, 48, 97, 98, 102, 102] none false).ret = 0 := by decide
example : (hex2bin 3 [97, 98, 99] none false).ret = -1 := by decide
example : (hex2bin 3 [97, 98, 99] none false).err = some 22 := by decide
example : (hex2bin 1 [97, 98, 97, 98] none true).ret = -1 := by decide
example : (hex2bin 1 [97, 98, 97, 98] none true).err = some 34 := by decide
example : (hex2bin 2 [97, 98, 63] none false).ret = -1 := by decide
example : (hex2bin 2 [97, 98, 63] none true).ret = 0 := by decide

/-! ## Hex round-trip (claim C8) -/

set_option maxRecDepth 100000

theorem bin2hexPair_eq : ∀ b, b < 256 →
    bin2hexPair b = (specLowerHexChar (b / 16), specLowerHexChar (b % 16)) := by decide

theorem bin2hexChars_eq_spec (bin : List Nat) (hb : ∀ b ∈ bin, b < 256) :
    bin2hexChars bin = specLowerHex bin := by
  induction bin with
  | nil => rfl
  | cons b rest ih =>
    have hb256 : b < 256 := hb b (List.mem_cons_self b rest)
    rw [bin2hexChars, specLowerHex, bin2hexPair_eq b hb256,
      ih (fun x hx => hb x (List.mem_cons_of_mem b hx))]

theorem specLowerHex_length (bin : List Nat) : (specLowerHex bin).length = 2 * bin.length := by
  induction bin with
  | nil => rfl
  | cons b rest ih => simp [specLowerHex, ih]; omega

theorem specChar_not_zero : ∀ v, v < 16 →
    (cNum0 (specLowerHexChar v) ||| cAlpha0 (specLowerHexChar v)) ≠ 0 := by decide

theorem specChar_cVal : ∀ v, v < 16 → cVal (specLowerHexChar v) = v := by decide

theorem nibbles_or : ∀ b, b < 256 → b / 16 * 16 % 256 ||| b % 16 = b := by decide

theorem h2bLoop_roundtrip (maxlen : Nat) (bin : List Nat) :
    ∀ (acc : List Nat) (pos cAcc : Nat),
      (∀ b ∈ bin, b < 256) → acc.length + bin.length ≤ maxlen →
      h2bLoop maxlen none (specLowerHex bin) pos acc false cAcc
        = ⟨0, none, acc ++ bin, pos + 2 * bin.length, false⟩ := by
  induction bin with
  | nil => intro acc pos cAcc _ _; simp [specLowerHex, h2bLoop]
  | cons b rest ih =>
    intro acc pos cAcc hb hlen
    have hb256 : b < 256 := hb b (List.mem_cons_self b rest)
    have hhi : b / 16 < 16 := by omega
    have hlo : b % 16 < 16 := by omega
    have hacc : ¬ acc.length ≥ maxlen := by
      simp only [List.length_cons] at hlen; omega
    rw [specLowerHex, h2bLoop, if_neg (specChar_not_zero _ hhi), if_neg hacc, if_pos rfl,
      h2bLoop, if_neg (specChar_not_zero _ hlo), if_neg hacc]
    rw [if_neg (by simp), specChar_cVal _ hhi, specChar_cVal _ hlo, nibbles_or b hb256]
    rw [ih (acc ++ [b]) (pos + 1 + 1) (b / 16 * 16 % 256)
      (fun x hx => hb x (List.mem_cons_of_mem b hx))
      (by simp only [List.length_append, List.length_cons, List.length_nil] at hlen ⊢; omega)]
    simp only [H2bLoopOut.mk.injEq, List.append_assoc, List.singleton_append,
      List.length_cons, true_and, and_true]
    omega

/-- C8: for every byte sequence `b` whose length is below `SIZE_MAX/2`, with
an output buffer of capacity at least `2 * len b`, `bin2hex` produces the
lowercase hexadecimal encoding of `b` of length exactly `2 * len b`, and
`hex2bin` applied to that encoding with a destination of at least `len b`
bytes succeeds (`ret = 0`) and returns exactly the original bytes `b`. -/
theorem hex_round_trip (bin : List Nat) (hexMaxlen binMaxlen : Nat)
    (hbytes : ∀ b ∈ bin, b < 256)
    (hsize : bin.length < (2 ^ 64 - 1) / 2)
    (hhexcap : bin.length * 2 ≤ hexMaxlen)
    (hdst : bin.length ≤ binMaxlen) :
    bin2hex hexMaxlen bin = some (specLowerHex bin) ∧
    (specLowerHex bin).length = 2 * bin.length ∧
    (hex2bin binMaxlen (specLowerHex bin) none false).ret = 0 ∧
    (hex2bin binMaxlen (specLowerHex bin) none false).bin = bin ∧
    (hex2bin binMaxlen (specLowerHex bin) none false).binLen = bin.length ∧
    (hex2bin binMaxlen (specLowerHex bin) none false).hexPos = 2 * bin.length := by
  have hloop := h2bLoop_roundtrip binMaxlen bin [] 0 0 hbytes (by simpa using hdst)
  have hlen := specLowerHex_length bin
  refine ⟨?_, hlen, ?_⟩
  · rw [bin2hex, if_neg (by omega), bin2hexChars_eq_spec bin hbytes]
  · simp only [hex2bin, List.nil_append] at hloop ⊢
    rw [hloop]
    simp [hlen]

/-- Closed witness for C8 at `b = [0, 171, 255]`. -/
theorem hex_round_trip_witness :
    bin2hex 6 [0, 171, 255] = some (specLowerHex [0, 171, 255]) ∧
    (specLowerHex [0, 171, 255]).length = 2 * [0, 171, 255].length ∧
    (hex2bin 3 (specLowerHex [0, 171, 255]) none false).ret = 0 ∧
    (hex2bin 3 (specLowerHex [0, 171, 255]) none false).bin = [0, 171, 255] ∧
    (hex2bin 3 (specLowerHex [0, 171, 255]) none false).binLen = [0, 171, 255].length ∧
    (hex2bin 3 (specLowerHex [0, 171, 255]) none false).hexPos = 2 * [0, 171, 255].length :=
  hex_round_trip [0, 171, 255] 6 3 (by decide) (by decide) (by decide) (by decide)

/-! ## `hex2bin` failure modes (claim C9) -/

theorem h2bLoop_allhex_complete (maxlen : Nat) (ign : Option (List Nat)) (hex : List Nat) :
    ∀ (acc : List Nat) (pos cAcc : Nat) (st : Bool),
      (∀ c ∈ hex, (cNum0 c ||| cAlpha0 c) ≠ 0) →
      acc.length + (hex.length + (if st then 1 else 0) + 1) / 2 ≤ maxlen →
      ∃ accF,
        h2bLoop maxlen ign hex pos acc st cAcc
          = ⟨0, none, accF, pos + hex.length, if hex.length % 2 = 0 then st else !st⟩ := by
  induction hex with
  | nil =>
    intro acc pos cAcc st _ _
    exact ⟨acc, by simp [h2bLoop]⟩
  | cons c rest ih =>
    intro acc pos cAcc st hhex hlen
    have hc : (cNum0 c ||| cAlpha0 c) ≠ 0 := hhex c (List.mem_cons_self c rest)
    have hrest : ∀ x ∈ rest, (cNum0 x ||| cAlpha0 x) ≠ 0 :=
      fun x hx => hhex x (List.mem_cons_of_mem c hx)
    have hacc : ¬ acc.length ≥ maxlen := by
      simp only [List.length_cons] at hlen
      rcases st <;> simp at hlen <;> omega
    rw [h2bLoop, if_neg hc, if_neg hacc]
    cases st with
    | false =>
      rw [if_pos rfl]
      obtain ⟨accF, hF⟩ := ih acc (pos + 1) ((cVal c * 16) % 256) true hrest
        (by simp only [List.length_cons] at hlen; simp at hlen ⊢; omega)
      refine ⟨accF, ?_⟩
      rw [hF]
      simp only [H2bLoopOut.mk.injEq, true_and]
      refine ⟨by simp only [List.length_cons]; omega, ?_⟩
      rcases Nat.mod_two_eq_zero_or_one rest.length with h | h <;>
        simp [h, Nat.succ_mod_two_eq_zero_iff, Nat.succ_mod_two_eq_one_iff]
    | true =>
      rw [if_neg (by simp)]
      obtain ⟨accF, hF⟩ := ih (acc ++ [cAcc ||| cVal c]) (pos + 1) cAcc false hrest
        (by simp only [List.length_cons] at hlen; simp at hlen ⊢; omega)
      refine ⟨accF, ?_⟩
      rw [hF]
      simp only [H2bLoopOut.mk.injEq, true_and]
      refine ⟨by simp only [List.length_cons]; omega, ?_⟩
      rcases Nat.mod_two_eq_zero_or_one rest.length with h | h <;>
        simp [h, Nat.succ_mod_two_eq_zero_iff, Nat.succ_mod_two_eq_one_iff]

theorem h2bLoop_allhex_erange (maxlen : Nat) (ign : Option (List Nat)) (hex : List Nat) :
    ∀ (acc : List Nat) (pos cAcc : Nat) (st : Bool),
      (∀ c ∈ hex, (cNum0 c ||| cAlpha0 c) ≠ 0) →
      maxlen < acc.length + (hex.length + 1 + (if st then 1 else 0)) / 2 →
      (st = true → acc.length < maxlen) →
      (st = false → acc.length ≤ maxlen) →
      ∃ accF posF,
        h2bLoop maxlen ign hex pos acc st cAcc = ⟨-1, some 34, accF, posF, false⟩ := by
  induction hex with
  | nil =>
    intro acc pos cAcc st _ hlt h1 h0
    exfalso
    cases st with
    | false => have := h0 rfl; simp at hlt; omega
    | true => have := h1 rfl; simp at hlt; omega
  | cons c rest ih =>
    intro acc pos cAcc st hhex hlt h1 h0
    have hc : (cNum0 c ||| cAlpha0 c) ≠ 0 := hhex c (List.mem_cons_self c rest)
    have hrest : ∀ x ∈ rest, (cNum0 x ||| cAlpha0 x) ≠ 0 :=
      fun x hx => hhex x (List.mem_cons_of_mem c hx)
    rw [h2bLoop, if_neg hc]
    cases st with
    | false =>
      by_cases hacc : acc.length ≥ maxlen
      · rw [if_pos hacc]
        exact ⟨acc, pos, rfl⟩
      · rw [if_neg hacc, if_pos rfl]
        refine ih acc (pos + 1) ((cVal c * 16) % 256) true hrest ?_ (fun _ => by omega)
          (fun h => by cases h)
        simp only [List.length_cons] at hlt
        simp at hlt ⊢
        omega
    | true =>
      have hacc : ¬ acc.length ≥ maxlen := by have := h1 rfl; omega
      rw [if_neg hacc, if_neg (by simp)]
      refine ih (acc ++ [cAcc ||| cVal c]) (pos + 1) cAcc false hrest ?_
        (fun h => by cases h) (fun _ => by simp; omega)
      simp only [List.length_cons] at hlt
      simp at hlt ⊢
      omega

/-- C9: `hex2bin` fails, returning `-1`, (a) on every all-hex input of odd
length — with `errno = EINVAL` when the destination can hold the decoded
bytes — (b) when the destination buffer is too small for the decoded bytes,
with `errno = ERANGE` when a `hex_end` out-pointer is supplied, and (c) when
no `hex_end` out-pointer is supplied and an unparsed portion of the input
remains after decoding stops. -/
theorem hex2bin_failure_modes (hex : List Nat) (binMaxlen : Nat) (ign : Option (List Nat))
    (hexEndRequested : Bool) :
    ((∀ c ∈ hex, (cNum0 c ||| cAlpha0 c) ≠ 0) → hex.length % 2 = 1 →
      (hex2bin binMaxlen hex ign hexEndRequested).ret = -1 ∧
      (hex.length / 2 < binMaxlen → (hex2bin binMaxlen hex ign hexEndRequested).err = some 22)) ∧
    ((∀ c ∈ hex, (cNum0 c ||| cAlpha0 c) ≠ 0) → binMaxlen < hex.length / 2 →
      (hex2bin binMaxlen hex ign hexEndRequested).ret = -1 ∧
      (hexEndRequested = true → (hex2bin binMaxlen hex ign hexEndRequested).err = some 34)) ∧
    ((hex2bin binMaxlen hex ign false).hexPos ≠ hex.length →
      (hex2bin binMaxlen hex ign false).ret = -1) := by
  refine ⟨?_, ?_, ?_⟩
  · intro hhex hodd
    by_cases hcap : hex.length / 2 < binMaxlen
    · obtain ⟨accF, hF⟩ := h2bLoop_allhex_complete binMaxlen ign hex [] 0 0 false hhex
        (by simp; omega)
      have hstate : (if hex.length % 2 = 0 then false else !false) = true := by
        rw [if_neg (by omega)]; rfl
      rw [hstate] at hF
      simp only [hex2bin, hF]
      constructor
      · cases hexEndRequested <;> simp
      · intro _; cases hexEndRequested <;> simp
    · obtain ⟨accF, posF, hF⟩ := h2bLoop_allhex_erange binMaxlen ign hex [] 0 0 false hhex
        (by simp; omega) (fun h => by cases h) (fun _ => by simp)
      simp only [hex2bin, hF]
      constructor
      · cases hexEndRequested <;> simp
      · intro _; omega
  · intro hhex hcap
    obtain ⟨accF, posF, hF⟩ := h2bLoop_allhex_erange binMaxlen ign hex [] 0 0 false hhex
      (by simp; omega) (fun h => by cases h) (fun _ => by simp)
    simp only [hex2bin, hF]
    constructor
    · cases hexEndRequested <;> simp
    · intro h; rw [h]; simp
  · intro h
    simp only [hex2bin] at h ⊢
    rw [if_neg (by simp : ¬((false : Bool) = true)), if_pos h]

/-- Closed witness for C9: odd all-hex input `"abc"`, the too-small
destination on `"abab"`, and the unparsed trailing `'?'` of `"ab?"`. -/
theorem hex2bin_failure_modes_witness :
    ((hex2bin 3 [97, 98, 99] none false).ret = -1 ∧
      (hex2bin 3 [97, 98, 99] none false).err = some 22) ∧
    ((hex2bin 1 [97, 98, 97, 98] none true).ret = -1 ∧
      (hex2bin 1 [97, 98, 97, 98] none true).err = some 34) ∧
    (hex2bin 2 [97, 98, 63] none false).ret = -1 := by
  refine ⟨?_, ?_, ?_⟩
  · have h := (hex2bin_failure_modes [97, 98, 99] 3 none false).1 (by decide) (by decide)
    exact ⟨h.1, h.2 (by decide)⟩
  · have h := (hex2bin_failure_modes [97, 98, 97, 98] 1 none true).2.1 (by decide) (by decide)
    exact ⟨h.1, h.2 rfl⟩
  · exact (hex2bin_failure_modes [97, 98, 63] 2 none false).2.2 (by decide)

/-! ## Ed25519 verification wrappers (claim C10) -/

def ED25519_KEYSIZE_BYTES : Nat := 32

def ED25519_SIGSIZE_BYTES : Nat := 64

def SHA256_SIZE_BYTES : Nat := 32

/-- Contents of a stack buffer of size `n` after `hex2bin` wrote the byte
prefix `written` into it: the written bytes followed by whatever
uninitialized bytes `junk` the buffer held. -/
def bufferAfter (n : Nat) (written junk : List Nat) : List Nat :=
  (written ++ junk).take n

/-- Model of `verify(const std::string& data, const std::string& pk, const
std::string& signature)` (validate.cpp:246-272).  `ed` abstracts the raw
Ed25519 verifier `verify(data, data_len, pk, signature)`; `data`, `pk`,
`sig` are the byte windows read from the three strings; `sigJunk` / `pkJunk`
are the uninitialized contents of the two stack buffers.  The
`std::runtime_error` raised when either hex conversion fails is the
`.error` case; `ed` is consulted only on the `.ok` path. -/
def verifyHexStr (ed : List Nat → List Nat → List Nat → Bool)
    (data pk sig : List Nat) (sigJunk pkJunk : List Nat) : Except String Bool :=
  let r1 := hex2bin ED25519_SIGSIZE_BYTES sig none false
  let binSignature := bufferAfter ED25519_SIGSIZE_BYTES r1.bin sigJunk
  let r2 := hex2bin ED25519_KEYSIZE_BYTES pk none false
  let binPk := bufferAfter ED25519_KEYSIZE_BYTES r2.bin pkJunk
  if r1.ret ≠ 0 ∨ r2.ret ≠ 0 then
    .error "Conversions from hex to bin format failed."
  else
    .ok (ed data binPk binSignature)

/-- Model of `verify_gpg_hashed_msg(const std::string& data, unsigned char*
pk, unsigned char* signature)` (validate.cpp:274-286): the return code of the
hex conversion of the digest is ignored and verification proceeds over
whatever the 32-byte buffer contains. -/
def verifyGpgHashedMsgRaw (ed : List Nat → List Nat → List Nat → Bool)
    (dataHex binPk binSignature : List Nat) (msgJunk : List Nat) : Bool :=
  let r := hex2bin SHA256_SIZE_BYTES dataHex none false
  ed (bufferAfter SHA256_SIZE_BYTES r.bin msgJunk) binPk binSignature

/-- Model of `verify_gpg_hashed_msg(const std::string& data, const
std::string& pk, const std::string& signature)` (validate.cpp:288-311): the
return codes of the hex conversions of the signature and the public key are
ignored; no exception path exists. -/
def verifyGpgHashedMsgHex (ed : List Nat → List Nat → List Nat → Bool)
    (dataHex pk sig : List Nat) (sigJunk pkJunk msgJunk : List Nat) : Except String Bool :=
  let r1 := hex2bin ED25519_SIGSIZE_BYTES sig none false
  let binSignature := bufferAfter ED25519_SIGSIZE_BYTES r1.bin sigJunk
  let r2 := hex2bin ED25519_KEYSIZE_BYTES pk none false
  let binPk := bufferAfter ED25519_KEYSIZE_BYTES r2.bin pkJunk
  .ok (verifyGpgHashedMsgRaw ed dataHex binPk binSignature msgJunk)

/-- C10: `verify_gpg_hashed_msg(string, string, string)` never raises on a
hex-decoding failure — it always returns an Ed25519 verdict computed over
whatever the buffers contain — whereas `verify(string, string, string)`
raises `"Conversions from hex to bin format failed."` whenever either of its
hex conversions fails, and in that case never consults the Ed25519
verifier. -/
theorem verify_gpg_hashed_msg_ignores_hex_failures
    (ed : List Nat → List Nat → List Nat → Bool)
    (dataHex data pk sig sigJunk pkJunk msgJunk : List Nat) :
    (∃ b, verifyGpgHashedMsgHex ed dataHex pk sig sigJunk pkJunk msgJunk = .ok b) ∧
    ((hex2bin ED25519_SIGSIZE_BYTES sig none false).ret ≠ 0 ∨
        (hex2bin ED25519_KEYSIZE_BYTES pk none false).ret ≠ 0 →
      verifyHexStr ed data pk sig sigJunk pkJunk
          = .error "Conversions from hex to bin format failed." ∧
      ∀ ed', verifyHexStr ed data pk sig sigJunk pkJunk
          = verifyHexStr ed' data pk sig sigJunk pkJunk) := by
  refine ⟨⟨_, rfl⟩, fun hfail => ⟨?_, fun ed' => ?_⟩⟩
  · rw [verifyHexStr, if_pos hfail]
  · rw [verifyHexStr, if_pos hfail, verifyHexStr, if_pos hfail]

/-- Closed witness for C10: the signature hex `"zz...z"` (128 times `'z'`)
fails to decode, so `verify` raises while `verify_gpg_hashed_msg` still
returns a verdict. -/
theorem verify_gpg_hashed_msg_ignores_hex_failures_witness :
    (∃ b, verifyGpgHashedMsgHex (fun _ _ _ => true) [] [] (List.replicate 128 122) [] [] []
        = .ok b) ∧
    verifyHexStr (fun _ _ _ => true) [] [] (List.replicate 128 122) [] []
        = .error "Conversions from hex to bin format failed." := by
  have h := verify_gpg_hashed_msg_ignores_hex_failures (fun _ _ _ => true)
    [] [] [] (List.replicate 128 122) [] [] []
  exact ⟨h.1, (h.2 (by decide)).1⟩

/-! ## Sorted association maps: the embedding of `std::map` / `std::set`
ordered by string key.  `insert` places an entry at its sorted position and
keeps the existing entry when the key is already present, exactly the
semantics of `std::map::insert` / `std::set::insert`. -/

abbrev Smap (α : Type) : Type := List (String × α)

instance {α : Type} : IsTrans (String × α) (fun a b => a.1 < b.1) :=
  ⟨fun _ _ _ h1 h2 => lt_trans h1 h2⟩

def Smap.find? {α : Type} : Smap α → String → Option α
  | [], _ => none
  | (k', v) :: t, k => if k = k' then some v else Smap.find? t k

instance (priority := high) strLtDecidable (s1 s2 : String) : Decidable (s1 < s2) :=
  decidable_of_iff (s1.data < s2.data) String.lt_iff_toList_lt.symm

def Smap.insert {α : Type} (k : String) (v : α) : Smap α → Smap α
  | [] => [(k, v)]
  | (k', v') :: t =>
    if k < k' then (k, v) :: (k', v') :: t
    else if k = k' then (k', v') :: t
    else (k', v') :: Smap.insert k v t

example : Smap.insert "b" 1 [("a", 1)] = [("a", 1), ("b", 1)] := by decide

/-- Keys strictly increase: the canonical-representation invariant of every
map the engine builds. -/
def Smap.Sorted {α : Type} (m : Smap α) : Prop :=
  List.Chain' (fun a b : String × α => a.1 < b.1) m

theorem Smap.sorted_nil {α : Type} : Smap.Sorted ([] : Smap α) := List.chain'_nil

theorem Smap.sorted_insert {α : Type} (k : String) (v : α) :
    ∀ m : Smap α, Smap.Sorted m → Smap.Sorted (Smap.insert k v m)
  | [], _ => List.chain'_singleton _
  | (k', v') :: t, h => by
    rw [Smap.insert]
    rcases lt_trichotomy k k' with hlt | heq | hgt
    · rw [if_pos hlt]
      exact List.chain'_cons.2 ⟨hlt, h⟩
    · rw [if_neg (by simp [heq]), if_pos heq]
      exact h
    · rw [if_neg (fun hc => absurd hgt (lt_asymm hc)),
        if_neg (fun hc => absurd hgt (by simp [hc]))]
      have htail : Smap.Sorted (Smap.insert k v t) :=
        Smap.sorted_insert k v t (List.chain'_cons'.1 h).2
      refine List.chain'_cons'.2 ⟨?_, htail⟩
      intro y hy
      cases t with
      | nil =>
        simp only [Smap.insert, List.head?_cons, Option.mem_def, Option.some.injEq] at hy
        subst hy
        exact hgt
      | cons p t' =>
        rw [Smap.insert] at hy
        have hchain := List.chain'_cons.1 h
        split at hy
        · simp only [List.head?_cons, Option.mem_def, Option.some.injEq] at hy
          subst hy
          exact hgt
        · split at hy <;>
          · simp only [List.head?_cons, Option.mem_def, Option.some.injEq] at hy
            subst hy
            exact hchain.1

theorem Smap.find?_eq_none_of_lt {α : Type} (k : String) :
    ∀ m : Smap α, (∀ p ∈ m, k < p.1) → Smap.find? m k = none
  | [], _ => rfl
  | (k1, v1) :: t, h => by
    rw [Smap.find?, if_neg (ne_of_lt (h (k1, v1) (List.mem_cons_self (k1, v1) t)))]
    exact Smap.find?_eq_none_of_lt k t (fun p hp => h p (List.mem_cons_of_mem _ hp))

theorem Smap.find?_insert_self {α : Type} (k : String) (v : α) :
    ∀ m : Smap α, Smap.Sorted m →
      Smap.find? (Smap.insert k v m) k = some ((Smap.find? m k).getD v)
  | [], _ => by simp [Smap.insert, Smap.find?]
  | (k', v') :: t, h => by
    rw [Smap.insert]
    rcases lt_trichotomy k k' with hlt | heq | hgt
    · have hall : ∀ p ∈ (k', v') :: t, k < p.1 := by
        intro p hp
        rcases List.mem_cons.1 hp with rfl | hp'
        · exact hlt
        · exact lt_trans hlt ((List.pairwise_cons.1 (List.chain'_iff_pairwise.1 h)).1 p hp')
      rw [if_pos hlt, Smap.find?, if_pos rfl, Smap.find?_eq_none_of_lt k _ hall]
      rfl
    · rw [if_neg (by simp [heq]), if_pos heq, Smap.find?, if_pos heq]
      rfl
    · have hne : k ≠ k' := fun hc => absurd hgt (by simp [hc])
      rw [if_neg (fun hc => absurd hgt (lt_asymm hc)), if_neg hne,
        Smap.find?, if_neg hne, Smap.find?, if_neg hne]
      exact Smap.find?_insert_self k v t (List.chain'_cons'.1 h).2

theorem Smap.find?_insert_ne {α : Type} (k : String) (v : α) (k' : String) (hne : k' ≠ k) :
    ∀ m : Smap α, Smap.find? (Smap.insert k v m) k' = Smap.find? m k'
  | [] => by simp [Smap.insert, Smap.find?, hne]
  | (k1, v1) :: t => by
    rw [Smap.insert]
    split
    · rw [Smap.find?, if_neg hne]
    · split
      · rfl
      · rw [Smap.find?, Smap.find?]
        split
        · rfl
        · exact Smap.find?_insert_ne k v k' hne t


/-! ## Keys, signatures and the threshold check (claim C1) -/

/-- The `Key` record of `validate.hpp` as read by `from_json` (keytype,
scheme, keyval). -/
structure Key where
  keytype : String
  scheme : String
  keyval : String
deriving DecidableEq, Repr

/-- `Key::from_ed25519(pk)`: a key synthesized from a raw hex public key. -/
def Key.from_ed25519 (pk : String) : Key := ⟨"ed25519", "ed25519", pk⟩

/-- `RoleFullKeys`: the materialised keyring consumed by
`check_signatures` — a `keyid → Key` map plus a threshold. -/
structure RoleFullKeys where
  keys : Smap Key
  threshold : Nat
deriving DecidableEq, Repr

/-- `std::set<RoleSignature>` ordered by `keyid` (see `operator<` at
validate.cpp:313-316), represented as a sorted `keyid → sig` map; the set
range constructor inserts in sequence keeping the first entry per keyid. -/
def mkSigSet (sigs : List (String × String)) : Smap String :=
  sigs.foldl (fun m s => Smap.insert s.1 s.2 m) []

/-- The `for (auto& s : signatures)` loop of `check_signatures`
(validate.cpp:644-679), abstracting the Ed25519 primitive as
`vf signed_data pk sig`.  The loop breaks as soon as
`valid_sig >= keyring.threshold`. -/
def csLoop (vf : String → String → String → Bool) (signedData : String)
    (keyring : RoleFullKeys) : Nat → List (String × String) → Nat
  | validSig, [] => validSig
  | validSig, s :: rest =>
    let v :=
      match Smap.find? keyring.keys s.1 with
      | some key => if vf signedData key.keyval s.2 then validSig + 1 else validSig
      | none => validSig
    if v ≥ keyring.threshold then v else csLoop vf signedData keyring v rest

/-- `RootRoleBase::check_signatures` (validate.cpp:644-679): throws
`threshold_error` iff the loop counter stays below the threshold. -/
def check_signatures (vf : String → String → String → Bool) (signedData : String)
    (sigs : List (String × String)) (keyring : RoleFullKeys) : Except TrustError Unit :=
  if csLoop vf signedData keyring 0 sigs < keyring.threshold then
    .error .thresholdError
  else .ok ()

/-- The signatures of `sigs` whose keyid is known to the keyring and whose
Ed25519 verification succeeds. -/
def countValidSigs (vf : String → String → String → Bool) (signedData : String)
    (keyring : RoleFullKeys) (sigs : List (String × String)) : Nat :=
  (sigs.filter fun s =>
    match Smap.find? keyring.keys s.1 with
    | some key => vf signedData key.keyval s.2
    | none => false).length

theorem csLoop_lt_iff (vf : String → String → String → Bool) (signedData : String)
    (keyring : RoleFullKeys) :
    ∀ (sigs : List (String × String)) (v : Nat),
      (csLoop vf signedData keyring v sigs < keyring.threshold ↔
        v + countValidSigs vf signedData keyring sigs < keyring.threshold)
  | [], v => by simp [csLoop, countValidSigs]
  | s :: rest, v => by
    cases hf : Smap.find? keyring.keys s.1 with
    | some key =>
      cases hv : vf signedData key.keyval s.2 with
      | true =>
        have hstep : csLoop vf signedData keyring v (s :: rest)
            = if keyring.threshold ≤ v + 1 then v + 1
              else csLoop vf signedData keyring (v + 1) rest := by
          rw [csLoop]
          simp [hf, hv]
        have hcount : countValidSigs vf signedData keyring (s :: rest)
            = 1 + countValidSigs vf signedData keyring rest := by
          rw [countValidSigs, countValidSigs, List.filter]
          simp [hf, hv, Nat.add_comm]
        rw [hstep, hcount]
        split
        · omega
        · rw [csLoop_lt_iff vf signedData keyring rest (v + 1)]
          omega
      | false =>
        have hstep : csLoop vf signedData keyring v (s :: rest)
            = if keyring.threshold ≤ v then v
              else csLoop vf signedData keyring v rest := by
          rw [csLoop]
          simp [hf, hv]
        have hcount : countValidSigs vf signedData keyring (s :: rest)
            = countValidSigs vf signedData keyring rest := by
          rw [countValidSigs, countValidSigs, List.filter]
          simp [hf, hv]
        rw [hstep, hcount]
        split
        · omega
        · rw [csLoop_lt_iff vf signedData keyring rest v]
    | none =>
      have hstep : csLoop vf signedData keyring v (s :: rest)
          = if keyring.threshold ≤ v then v
            else csLoop vf signedData keyring v rest := by
        rw [csLoop]
        simp [hf]
      have hcount : countValidSigs vf signedData keyring (s :: rest)
          = countValidSigs vf signedData keyring rest := by
        rw [countValidSigs, countValidSigs, List.filter]
        simp [hf]
      rw [hstep, hcount]
      split
      · omega
      · rw [csLoop_lt_iff vf signedData keyring rest v]

/-- C1: on the keyid-ordered, keyid-deduplicated signature set,
`check_signatures` throws `threshold_error` iff the number of signatures
with a known keyid and a successful Ed25519 verification stays below the
keyring's threshold, and returns normally iff that count reaches the
threshold; the set iterates in strictly increasing keyid order, so each
keyid contributes at most once.  In particular exactly `threshold` valid
signatures are accepted and `threshold - 1` are rejected. -/
theorem mkSigSet_sorted_aux :
    ∀ (sigs : List (String × String)) (acc : Smap String), Smap.Sorted acc →
      Smap.Sorted (sigs.foldl (fun m s => Smap.insert s.1 s.2 m) acc)
  | [], _, h => h
  | s :: rest, acc, h => mkSigSet_sorted_aux rest _ (Smap.sorted_insert s.1 s.2 acc h)

theorem check_signatures_threshold (vf : String → String → String → Bool)
    (signedData : String) (rawSigs : List (String × String)) (keyring : RoleFullKeys) :
    (check_signatures vf signedData (mkSigSet rawSigs) keyring = .error .thresholdError ↔
      countValidSigs vf signedData keyring (mkSigSet rawSigs) < keyring.threshold) ∧
    (check_signatures vf signedData (mkSigSet rawSigs) keyring = .ok () ↔
      keyring.threshold ≤ countValidSigs vf signedData keyring (mkSigSet rawSigs)) ∧
    List.Chain' (fun a b : String × String => a.1 < b.1) (mkSigSet rawSigs) := by
  have hiff := csLoop_lt_iff vf signedData keyring (mkSigSet rawSigs) 0
  rw [Nat.zero_add] at hiff
  have hsorted : Smap.Sorted (mkSigSet rawSigs) :=
    mkSigSet_sorted_aux rawSigs [] Smap.sorted_nil
  refine ⟨?_, ?_, hsorted⟩
  · rw [check_signatures]
    constructor
    · intro h
      by_cases hc : csLoop vf signedData keyring 0 (mkSigSet rawSigs) < keyring.threshold
      · exact hiff.1 hc
      · rw [if_neg hc] at h; cases h
    · intro h
      rw [if_pos (hiff.2 h)]
  · rw [check_signatures]
    constructor
    · intro h
      by_cases hc : csLoop vf signedData keyring 0 (mkSigSet rawSigs) < keyring.threshold
      · rw [if_pos hc] at h; cases h
      · have := hiff.not.1 hc; omega
    · intro h
      rw [if_neg (fun hc => absurd (hiff.1 hc) (by omega))]


/-! ## Root-role update state machine (claims C2 and C5) -/

/-- `RootRoleBase::update(json)` (validate.cpp:605-631).  `createUpd` is the
outcome of `create_update(j)` — which parses the candidate and, inside the
candidate's constructor, already checks its signatures against the
candidate's own keyring — yielding the candidate's version; `sigCheck` is
`check_role_signatures(j, *root_update)`, the check of the candidate's
signatures against the current root's keyring. -/
def rootUpdate (curVersion : Nat) (createUpd : Except TrustError Nat)
    (sigCheck : Nat → Except TrustError Unit) : Except TrustError Nat :=
  match createUpd with
  | .error e => .error e
  | .ok newVersion =>
    match sigCheck newVersion with
    | .error e => .error e
    | .ok _ =>
      if newVersion ≠ curVersion + 1 then
        if newVersion > curVersion + 1 then .error .roleMetadataError
        else .error .rollbackError
      else .ok newVersion

/-- C2: for a candidate that passes both signature checks, `update` throws
`role_metadata_error` when the candidate's version exceeds
`current.version + 1`, throws `rollback_error` when it is at most
`current.version`, and succeeds exactly when the version is
`current.version + 1` — so every successful update increases the stored
version by exactly 1. -/
theorem root_update_version_rules (curVersion : Nat)
    (createUpd : Except TrustError Nat) (sigCheck : Nat → Except TrustError Unit)
    (newVersion : Nat) (hc : createUpd = .ok newVersion) (hs : sigCheck newVersion = .ok ()) :
    (newVersion > curVersion + 1 →
      rootUpdate curVersion createUpd sigCheck = .error .roleMetadataError) ∧
    (newVersion ≤ curVersion →
      rootUpdate curVersion createUpd sigCheck = .error .rollbackError) ∧
    (rootUpdate curVersion createUpd sigCheck = .ok newVersion ↔ newVersion = curVersion + 1) ∧
    (∀ res, rootUpdate curVersion createUpd sigCheck = .ok res → res = curVersion + 1) := by
  subst hc
  simp only [rootUpdate]
  rw [hs]
  refine ⟨?_, ?_, ?_, ?_⟩
  · intro h
    rw [if_pos (by omega), if_pos (by omega)]
  · intro h
    rw [if_pos (by omega : newVersion ≠ curVersion + 1), if_neg (by omega)]
  · constructor
    · intro hok
      by_cases h : newVersion = curVersion + 1
      · exact h
      · rw [if_pos h] at hok
        by_cases h2 : newVersion > curVersion + 1
        · rw [if_pos h2] at hok; cases hok
        · rw [if_neg h2] at hok; cases hok
    · intro h
      rw [if_neg (by simp [h])]
  · intro res hres
    by_cases h : newVersion = curVersion + 1
    · rw [if_neg (by simp [h])] at hres
      cases hres
      exact h
    · rw [if_pos h] at hres
      by_cases h2 : newVersion > curVersion + 1
      · rw [if_pos h2] at hres; cases hres
      · rw [if_neg h2] at hres; cases hres

/-- Closed witness for C2: the spec's Scenario C (`current.version = 2`,
candidate version 2 ⇒ rollback), Scenario D (version 4 ⇒ metadata error)
and the successful `N + 1` rotation. -/
theorem root_update_version_rules_witness :
    rootUpdate 2 (.ok 2) (fun _ => .ok ()) = .error .rollbackError ∧
    rootUpdate 2 (.ok 4) (fun _ => .ok ()) = .error .roleMetadataError ∧
    rootUpdate 2 (.ok 3) (fun _ => .ok ()) = .ok 3 :=
  ⟨(root_update_version_rules 2 _ _ 2 rfl rfl).2.1 (by omega),
   (root_update_version_rules 2 _ _ 4 rfl rfl).1 (by omega),
   (root_update_version_rules 2 _ _ 3 rfl rfl).2.2.1.2 rfl⟩

/-- Modelled from the spec: `SpecVersion` is declared in the header, which
is not under `src/`; §3 of the spec defines it as the tagged variant
`{V06, V1}`, derived from the leading integer of a `spec_version` string. -/
inductive SpecVersion where
  | kV06
  | kV1
deriving DecidableEq, Repr

/-- The two root-metadata dialects. -/
inductive Dialect where
  | v06
  | v1
deriving DecidableEq, Repr

/-- `RepoTrust::RepoTrust` (validate.cpp:1149-1166): the dialect of the
`RootRole` constructed for the local trusted root file.  Both the `kV06`
branch and the `kV1` branch construct a `v1::RootRole`; the final `else`
(`spec_version_error`) is unreachable for the two enum values. -/
def repoTrustRootDialect : SpecVersion → Except TrustError Dialect
  | SpecVersion.kV06 => .ok Dialect.v1
  | SpecVersion.kV1 => .ok Dialect.v1

/-- C5: for every `SpecVersion` argument, the `RepoTrust` constructor parses
the local trusted root with the v1 dialect parser; in particular `kV06` does
not load the root as a v0.6 `RootRole`. -/
theorem repo_trust_loads_v1_root :
    ∀ sv : SpecVersion, repoTrustRootDialect sv = .ok Dialect.v1 ∧
      repoTrustRootDialect sv ≠ .ok Dialect.v06 := by
  intro sv
  cases sv <;> exact ⟨rfl, fun h => Dialect.noConfusion (Except.ok.inj h)⟩


/-! ## JSON values and spec-version dispatch (claim C3) -/

/-- A JSON value, as far as the metadata parsers inspect it. -/
inductive Json where
  | null
  | str (s : String)
  | num (n : Nat)
  | jbool (b : Bool)
  | arr (elems : List Json)
  | obj (fields : List (String × Json))

/-- `j.at(key)`: `some` on an object containing the key, otherwise `none`
(modelling the `json::exception` thrown by `at`). -/
def Json.lookup? : Json → String → Option Json
  | .obj fields, k => Smap.find? fields k
  | _, _ => none

/-- `mamba::starts_with(str, p)`, modelled over the character lists of the
two strings. -/
def strStartsWith (s p : String) : Bool := p.data.isPrefixOf s.data

/-- `v1::is_spec_version_compatible(j)` (validate.cpp:866-880): reads
`j["signed"]["spec_version"]` as a string and tests `starts_with(sv, "1.")`;
any JSON exception (missing field, wrong type) yields `false`. -/
def v1SpecCompatible (j : Json) : Bool :=
  match (j.lookup? "signed").bind (fun s => s.lookup? "spec_version") with
  | some (.str sv) => strStartsWith sv "1."
  | _ => false

/-- `v06::is_spec_version_compatible(j)` (validate.cpp:1077-1091): reads
`j["signed"]["metadata_spec_version"]` and tests `starts_with(sv, "0.6.")`. -/
def v06SpecCompatible (j : Json) : Bool :=
  match (j.lookup? "signed").bind (fun s => s.lookup? "metadata_spec_version") with
  | some (.str sv) => strStartsWith sv "0.6."
  | _ => false

/-- `v06::RootRole::create_update` (validate.cpp:904-919): the dialect chosen
for parsing the candidate (the subsequent `RootRole(j)` construction may
still fail for other reasons).  The missing `else` before the final block of
the C++ has no behavioral effect because both earlier branches return. -/
def v06CreateUpdate (j : Json) : Except TrustError Dialect :=
  if v06SpecCompatible j then .ok Dialect.v06
  else if v1SpecCompatible j then .ok Dialect.v1
  else .error .specVersionError

/-- `v1::RootRole::create_update` (validate.cpp:701-712). -/
def v1CreateUpdate (j : Json) : Except TrustError Dialect :=
  if v1SpecCompatible j then .ok Dialect.v1
  else .error .specVersionError

theorem v06SpecCompatible_iff (j : Json) :
    v06SpecCompatible j = true ↔
      ∃ sv, (j.lookup? "signed").bind (fun s => s.lookup? "metadata_spec_version")
          = some (.str sv) ∧ strStartsWith sv "0.6." = true := by
  rw [v06SpecCompatible]
  cases h : (j.lookup? "signed").bind (fun s => s.lookup? "metadata_spec_version") with
  | none => simp
  | some jv => cases jv <;> simp

theorem v1SpecCompatible_iff (j : Json) :
    v1SpecCompatible j = true ↔
      ∃ sv, (j.lookup? "signed").bind (fun s => s.lookup? "spec_version")
          = some (.str sv) ∧ strStartsWith sv "1." = true := by
  rw [v1SpecCompatible]
  cases h : (j.lookup? "signed").bind (fun s => s.lookup? "spec_version") with
  | none => simp
  | some jv => cases jv <;> simp

/-- C3: a candidate is v0.6-compatible iff its
`signed.metadata_spec_version` is a string starting with `"0.6."`, and
v1-compatible iff its `signed.spec_version` is a string starting with
`"1."`; from a v0.6 store the candidate is parsed as v0.6 when
v0.6-compatible, otherwise as v1 when v1-compatible, otherwise
`spec_version_error` is thrown; from a v1 store only a v1-compatible
candidate is accepted and anything else — in particular a v0.6 candidate —
raises `spec_version_error` (no downgrade). -/
theorem create_update_dialect (j : Json) :
    (v06SpecCompatible j = true ↔
      ∃ sv, (j.lookup? "signed").bind (fun s => s.lookup? "metadata_spec_version")
          = some (.str sv) ∧ strStartsWith sv "0.6." = true) ∧
    (v1SpecCompatible j = true ↔
      ∃ sv, (j.lookup? "signed").bind (fun s => s.lookup? "spec_version")
          = some (.str sv) ∧ strStartsWith sv "1." = true) ∧
    (v06SpecCompatible j = true → v06CreateUpdate j = .ok Dialect.v06) ∧
    (v06SpecCompatible j = false → v1SpecCompatible j = true →
      v06CreateUpdate j = .ok Dialect.v1) ∧
    (v06SpecCompatible j = false → v1SpecCompatible j = false →
      v06CreateUpdate j = .error .specVersionError) ∧
    (v1SpecCompatible j = true → v1CreateUpdate j = .ok Dialect.v1) ∧
    (v1SpecCompatible j = false → v1CreateUpdate j = .error .specVersionError) := by
  refine ⟨v06SpecCompatible_iff j, v1SpecCompatible_iff j, ?_, ?_, ?_, ?_, ?_⟩
  · intro h
    rw [v06CreateUpdate, if_pos h]
  · intro h06 h1
    rw [v06CreateUpdate, if_neg (by simp [h06]), if_pos h1]
  · intro h06 h1
    rw [v06CreateUpdate, if_neg (by simp [h06]), if_neg (by simp [h1])]
  · intro h
    rw [v1CreateUpdate, if_pos h]
  · intro h
    rw [v1CreateUpdate, if_neg (by simp [h])]

/-- Closed witness for C3: a v0.6 candidate after a v0.6 store is parsed as
v0.6; a v1 candidate after a v0.6 store is parsed as v1 (upgrade); a
candidate with neither version marker fails; a v1 candidate after a v1 store
is parsed as v1; a v0.6 candidate after a v1 store is rejected. -/
theorem create_update_dialect_witness :
    v06CreateUpdate (.obj [("signed", .obj [("metadata_spec_version", .str "0.6.0")])])
        = .ok Dialect.v06 ∧
    v06CreateUpdate (.obj [("signed", .obj [("spec_version", .str "1.0.17")])])
        = .ok Dialect.v1 ∧
    v06CreateUpdate (.obj [("signed", .obj [])]) = .error .specVersionError ∧
    v1CreateUpdate (.obj [("signed", .obj [("spec_version", .str "1.0.17")])])
        = .ok Dialect.v1 ∧
    v1CreateUpdate (.obj [("signed", .obj [("metadata_spec_version", .str "0.6.0")])])
        = .error .specVersionError :=
  ⟨(create_update_dialect _).2.2.1 (by decide),
   (create_update_dialect _).2.2.2.1 (by decide) (by decide),
   (create_update_dialect _).2.2.2.2.1 (by decide) (by decide),
   (create_update_dialect _).2.2.2.2.2.1 (by decide),
   (create_update_dialect _).2.2.2.2.2.2 (by decide)⟩


/-! ## v0.6 keyrings and the upgraded signable (claim C4) -/

/-- `RoleKeys` (v1 form): keyids plus threshold. -/
structure RoleKeys where
  keyids : List String
  threshold : Nat
deriving DecidableEq, Repr

/-- `RolePubKeys` (v0.6 form): pubkeys plus threshold. -/
structure RolePubKeys where
  pubkeys : List String
  threshold : Nat
deriving DecidableEq, Repr

/-- `RolePubKeys::to_role_keys` (validate.cpp:437-440). -/
def RolePubKeys.to_role_keys (r : RolePubKeys) : RoleKeys :=
  ⟨r.pubkeys, r.threshold⟩

/-- The `role_keys` map built by `v06::RootRole::keys()` for one
delegation: `role_keys.insert({key, Key::from_ed25519(key)})` over the
delegation's pubkeys (validate.cpp:994-998). -/
def buildKeyMap (pks : List String) : Smap Key :=
  pks.foldl (fun m k => Smap.insert k (Key.from_ed25519 k) m) []

theorem buildKeyMap_loop (pks : List String) :
    ∀ (acc : Smap Key), Smap.Sorted acc →
      (∀ k, Smap.find? acc k = none ∨ Smap.find? acc k = some (Key.from_ed25519 k)) →
      Smap.Sorted (pks.foldl (fun m k => Smap.insert k (Key.from_ed25519 k) m) acc) ∧
      (∀ k, Smap.find? (pks.foldl (fun m k => Smap.insert k (Key.from_ed25519 k) m) acc) k = none ∨
        Smap.find? (pks.foldl (fun m k => Smap.insert k (Key.from_ed25519 k) m) acc) k
          = some (Key.from_ed25519 k)) ∧
      (∀ k, k ∈ pks ∨ Smap.find? acc k = some (Key.from_ed25519 k) →
        Smap.find? (pks.foldl (fun m k => Smap.insert k (Key.from_ed25519 k) m) acc) k
          = some (Key.from_ed25519 k))
  | acc, hs, hv => by
    induction pks generalizing acc with
    | nil =>
      refine ⟨hs, hv, ?_⟩
      intro k hk
      rcases hk with hk | hk
      · cases hk
      · exact hk
    | cons p rest ih =>
      have hs2 : Smap.Sorted (Smap.insert p (Key.from_ed25519 p) acc) :=
        Smap.sorted_insert p (Key.from_ed25519 p) acc hs
      have hv2 : ∀ k, Smap.find? (Smap.insert p (Key.from_ed25519 p) acc) k = none ∨
          Smap.find? (Smap.insert p (Key.from_ed25519 p) acc) k = some (Key.from_ed25519 k) := by
        intro k
        by_cases hk : k = p
        · rw [hk, Smap.find?_insert_self p (Key.from_ed25519 p) acc hs]
          rcases hv p with h | h <;> rw [h] <;> simp
        · rw [Smap.find?_insert_ne p (Key.from_ed25519 p) k hk acc]
          exact hv k
      obtain ⟨ihs, ihv, ihmem⟩ := ih _ hs2 hv2
      refine ⟨ihs, ihv, ?_⟩
      intro k hk
      have hself : Smap.find? (Smap.insert p (Key.from_ed25519 p) acc) p
          = some (Key.from_ed25519 p) := by
        rw [Smap.find?_insert_self p (Key.from_ed25519 p) acc hs]
        rcases hv p with h | h <;> rw [h] <;> simp
      rcases hk with hk | hk
      · rcases List.mem_cons.1 hk with rfl | hk'
        · exact ihmem k (Or.inr hself)
        · exact ihmem k (Or.inl hk')
      · by_cases hkp : k = p
        · rw [hkp]
          exact ihmem p (Or.inr hself)
        · refine ihmem k (Or.inr ?_)
          rw [Smap.find?_insert_ne p (Key.from_ed25519 p) k hkp acc]
          exact hk

theorem buildKeyMap_sorted (pks : List String) : Smap.Sorted (buildKeyMap pks) :=
  (buildKeyMap_loop pks [] Smap.sorted_nil (fun _ => Or.inl rfl)).1

theorem buildKeyMap_find?_mem (pks : List String) (k : String) (hk : k ∈ pks) :
    Smap.find? (buildKeyMap pks) k = some (Key.from_ed25519 k) :=
  (buildKeyMap_loop pks [] Smap.sorted_nil (fun _ => Or.inl rfl)).2.2 k (Or.inl hk)

/-- `v06::RootRole::keys()` (validate.cpp:989-1002): one `RoleFullKeys`
entry per delegation, whose key map pairs every pubkey with
`Key::from_ed25519`. -/
def v06Keys (dels : Smap RolePubKeys) : Smap RoleFullKeys :=
  dels.foldl
    (fun res p => Smap.insert p.1 ⟨buildKeyMap p.2.pubkeys, p.2.threshold⟩ res) []

theorem v06Keys_loop (dels : List (String × RolePubKeys)) :
    ∀ (acc : Smap RoleFullKeys), Smap.Sorted acc → ∀ k,
      Smap.find?
        (dels.foldl
          (fun res p => Smap.insert p.1 ⟨buildKeyMap p.2.pubkeys, p.2.threshold⟩ res) acc) k
        = match Smap.find? acc k with
          | some v => some v
          | none =>
            (Smap.find? dels k).map fun d =>
              (⟨buildKeyMap d.pubkeys, d.threshold⟩ : RoleFullKeys)
  | acc, hs, k => by
    induction dels generalizing acc with
    | nil => cases h : Smap.find? acc k <;> simp [h, Smap.find?]
    | cons p rest ih =>
      rw [List.foldl_cons,
        ih _ (Smap.sorted_insert p.1 ⟨buildKeyMap p.2.pubkeys, p.2.threshold⟩ acc hs)]
      by_cases hk : k = p.1
      · rw [hk, Smap.find?_insert_self p.1 ⟨buildKeyMap p.2.pubkeys, p.2.threshold⟩ acc hs]
        cases hacc : Smap.find? acc p.1 with
        | some v => simp [hacc, Smap.find?]
        | none => simp [hacc, Smap.find?]
      · rw [Smap.find?_insert_ne p.1 ⟨buildKeyMap p.2.pubkeys, p.2.threshold⟩ k hk acc]
        cases hacc : Smap.find? acc k with
        | some v => rfl
        | none =>
          have : Smap.find? (p :: rest) k = Smap.find? rest k := by
            rw [Smap.find?, if_neg hk]
          rw [this]

theorem v06Keys_find? (dels : Smap RolePubKeys) (k : String) (d : RolePubKeys)
    (h : Smap.find? dels k = some d) :
    Smap.find? (v06Keys dels) k = some ⟨buildKeyMap d.pubkeys, d.threshold⟩ := by
  rw [v06Keys, v06Keys_loop dels [] Smap.sorted_nil k]
  rw [show Smap.find? ([] : Smap RoleFullKeys) k = none from rfl, h]
  rfl

/-- The `v1_keys.insert(allkeys.at("key_mgr").keys.cbegin(), ...cend())`
range-insert of `upgraded_signable` (validate.cpp:963-965): existing entries
of `dst` win. -/
def insertAll (dst : Smap Key) (src : Smap Key) : Smap Key :=
  src.foldl (fun m p => Smap.insert p.1 p.2 m) dst

theorem insertAll_find?_dst (src : List (String × Key)) :
    ∀ (dst : Smap Key), Smap.Sorted dst → ∀ k v, Smap.find? dst k = some v →
      Smap.find? (insertAll dst src) k = some v := by
  induction src with
  | nil => intro dst _ k v h; exact h
  | cons p rest ih =>
    intro dst hs k v h
    rw [insertAll, List.foldl_cons]
    refine ih (Smap.insert p.1 p.2 dst) (Smap.sorted_insert p.1 p.2 dst hs) k v ?_
    by_cases hk : k = p.1
    · rw [hk] at h ⊢
      rw [Smap.find?_insert_self p.1 p.2 dst hs, h]
      rfl
    · rw [Smap.find?_insert_ne p.1 p.2 k hk dst]
      exact h

/-- The per-role projection loop of `v1::RootRole::keys()`
(validate.cpp:745-753): `role_keys.insert({keyid, m_keys.at(keyid)})`; a
`keyid` missing from `m_keys` (the `at` throw) is `none`. -/
def projectKeys (keysMap : Smap Key) (keyids : List String) : Option (Smap Key) :=
  keyids.foldlM
    (fun acc kid => (Smap.find? keysMap kid).map fun key => Smap.insert kid key acc) []

theorem projectKeys_loop (keysMap : Smap Key) (f : String → Key) :
    ∀ (keyids : List String) (acc : Smap Key),
      (∀ kid ∈ keyids, Smap.find? keysMap kid = some (f kid)) →
      keyids.foldlM
        (fun acc kid => (Smap.find? keysMap kid).map fun key => Smap.insert kid key acc) acc
        = some (keyids.foldl (fun m kid => Smap.insert kid (f kid) m) acc)
  | [], acc, _ => rfl
  | kid :: rest, acc, hall => by
    rw [List.foldlM_cons, hall kid (List.mem_cons_self kid rest)]
    rw [show ((some (f kid)).map fun key => Smap.insert kid key acc)
        = some (Smap.insert kid (f kid) acc) from rfl]
    rw [show ((some (Smap.insert kid (f kid) acc)) >>=
          fun acc => rest.foldlM
            (fun acc kid => (Smap.find? keysMap kid).map fun key => Smap.insert kid key acc) acc)
        = rest.foldlM
            (fun acc kid => (Smap.find? keysMap kid).map fun key => Smap.insert kid key acc)
            (Smap.insert kid (f kid) acc) from rfl]
    rw [projectKeys_loop keysMap f rest (Smap.insert kid (f kid) acc)
      (fun x hx => hall x (List.mem_cons_of_mem kid hx))]
    rfl

/-- The `RoleFullKeys` obtained by projecting one v1 role through a key
map, as `v1::RootRole::keys()` does. -/
def v1ProjectRole (keysMap : Smap Key) (rk : RoleKeys) : Option RoleFullKeys :=
  (projectKeys keysMap rk.keyids).map fun m => ⟨m, rk.threshold⟩

/-- The v1-equivalent signable synthesized by
`v06::RootRole::upgraded_signable()` (validate.cpp:954-973), as a record
instead of a JSON document. -/
structure UpgradedSignable where
  rolesRoot : RoleKeys
  rolesTargets : RoleKeys
  rolesSnapshot : RoleKeys
  rolesTimestamp : RoleKeys
  keys : Smap Key
  version : Nat
  specVersion : String
deriving DecidableEq, Repr

/-- `v06::RootRole::upgraded_signable()` (validate.cpp:954-973): reads the
`root` and `key_mgr` delegations and the corresponding entries of `keys()`;
a missing entry (a `std::map::at` throw) is `none`. -/
def upgraded_signable (dels : Smap RolePubKeys) (version : Nat) : Option UpgradedSignable :=
  match Smap.find? dels "root", Smap.find? dels "key_mgr" with
  | some dRoot, some dKm =>
    match Smap.find? (v06Keys dels) "root", Smap.find? (v06Keys dels) "key_mgr" with
    | some rootFull, some kmFull =>
      some
        { rolesRoot := dRoot.to_role_keys
          rolesTargets := dKm.to_role_keys
          rolesSnapshot := ⟨[], 1⟩
          rolesTimestamp := ⟨[], 1⟩
          keys := insertAll rootFull.keys kmFull.keys
          version := version
          specVersion := "1.0.17" }
    | _, _ => none
  | _, _ => none

/-- The keyring `check_role_signatures` actually uses when the current root
is a v0.6 role: `keys().at("root")` (validate.cpp:633-642). -/
def v06RootKeyring (dels : Smap RolePubKeys) : Option RoleFullKeys :=
  Smap.find? (v06Keys dels) "root"

/-- C4: when the current root is v0.6, the keyring used by
`check_role_signatures` — the `"root"` entry of the v0.6 root's `keys()` —
equals the keyring obtained from the `"root"` role of `upgraded_signable()`
projected through its `keys` by the v1 `keys()` logic: same key map, same
threshold. -/
theorem upgrade_keyring_agrees (dels : Smap RolePubKeys) (version : Nat)
    (dRoot dKm : RolePubKeys)
    (hroot : Smap.find? dels "root" = some dRoot)
    (hkm : Smap.find? dels "key_mgr" = some dKm) :
    ∃ up, upgraded_signable dels version = some up ∧
      v06RootKeyring dels = some ⟨buildKeyMap dRoot.pubkeys, dRoot.threshold⟩ ∧
      v1ProjectRole up.keys up.rolesRoot
        = some ⟨buildKeyMap dRoot.pubkeys, dRoot.threshold⟩ := by
  have hfullRoot := v06Keys_find? dels "root" dRoot hroot
  have hfullKm := v06Keys_find? dels "key_mgr" dKm hkm
  have hup : upgraded_signable dels version
      = some
          { rolesRoot := dRoot.to_role_keys
            rolesTargets := dKm.to_role_keys
            rolesSnapshot := ⟨[], 1⟩
            rolesTimestamp := ⟨[], 1⟩
            keys := insertAll (buildKeyMap dRoot.pubkeys) (buildKeyMap dKm.pubkeys)
            version := version
            specVersion := "1.0.17" } := by
    rw [upgraded_signable, hroot, hkm, hfullRoot, hfullKm]
  refine ⟨_, hup, hfullRoot, ?_⟩
  rw [v1ProjectRole]
  have hall : ∀ kid ∈ (dRoot.to_role_keys).keyids,
      Smap.find? (insertAll (buildKeyMap dRoot.pubkeys) (buildKeyMap dKm.pubkeys)) kid
        = some (Key.from_ed25519 kid) := by
    intro kid hkid
    exact insertAll_find?_dst (buildKeyMap dKm.pubkeys) (buildKeyMap dRoot.pubkeys)
      (buildKeyMap_sorted dRoot.pubkeys) kid (Key.from_ed25519 kid)
      (buildKeyMap_find?_mem dRoot.pubkeys kid hkid)
  rw [show projectKeys (insertAll (buildKeyMap dRoot.pubkeys) (buildKeyMap dKm.pubkeys))
        (dRoot.to_role_keys).keyids
      = some ((dRoot.to_role_keys).keyids.foldl
          (fun m kid => Smap.insert kid (Key.from_ed25519 kid) m) []) from
    projectKeys_loop _ Key.from_ed25519 _ [] hall]
  rfl

/-- Closed witness for C4 at a two-delegation v0.6 root. -/
theorem upgrade_keyring_agrees_witness :
    ∃ up,
      upgraded_signable [("key_mgr", ⟨["bb"], 2⟩), ("root", ⟨["aa"], 1⟩)] 3 = some up ∧
      v06RootKeyring [("key_mgr", ⟨["bb"], 2⟩), ("root", ⟨["aa"], 1⟩)]
        = some ⟨buildKeyMap ["aa"], 1⟩ ∧
      v1ProjectRole up.keys up.rolesRoot = some ⟨buildKeyMap ["aa"], 1⟩ :=
  upgrade_keyring_agrees [("key_mgr", ⟨["bb"], 2⟩), ("root", ⟨["aa"], 1⟩)] 3
    ⟨["aa"], 1⟩ ⟨["bb"], 2⟩ (by decide) (by decide)


/-! ## Root-metadata parsers (claims C6 and C7) -/

/-- `json::get<std::string>`. -/
def Json.asStr : Json → Option String
  | .str s => some s
  | _ => none

/-- `json::get<std::size_t>`. -/
def Json.asNat : Json → Option Nat
  | .num n => some n
  | _ => none

/-- `json::get<std::vector<std::string>>`. -/
def Json.asStrList : Json → Option (List String)
  | .arr es => es.mapM Json.asStr
  | _ => none

/-- `json::get<std::map<std::string, T>>`: decode every field and build the
`std::map` by emplace, which keeps the first entry for a duplicate key. -/
def decodeObjMap {α : Type} (f : Json → Option α) : Json → Option (Smap α)
  | .obj fields =>
    fields.foldlM (fun acc p => (f p.2).map fun v => Smap.insert p.1 v acc) []
  | _ => none

/-- `from_json(const json&, Key&)` (validate.cpp:1119-1124). -/
def decodeKey (j : Json) : Option Key :=
  match (j.lookup? "keytype").bind Json.asStr with
  | none => none
  | some kt =>
    match (j.lookup? "scheme").bind Json.asStr with
    | none => none
    | some sc =>
      match (j.lookup? "keyval").bind Json.asStr with
      | none => none
      | some kv => some ⟨kt, sc, kv⟩

/-- `from_json(const json&, RoleKeys&)` (validate.cpp:1126-1130). -/
def decodeRoleKeys (j : Json) : Option RoleKeys :=
  match (j.lookup? "keyids").bind Json.asStrList with
  | none => none
  | some keyids =>
    match (j.lookup? "threshold").bind Json.asNat with
    | none => none
    | some threshold => some ⟨keyids, threshold⟩

/-- `from_json(const json&, RolePubKeys&)` (validate.cpp:1132-1136). -/
def decodeRolePubKeys (j : Json) : Option RolePubKeys :=
  match (j.lookup? "pubkeys").bind Json.asStrList with
  | none => none
  | some pubkeys =>
    match (j.lookup? "threshold").bind Json.asNat with
    | none => none
    | some threshold => some ⟨pubkeys, threshold⟩

/-- Modelled from the spec: the `Role` enum and its JSON string mapping are
declared in the header, which is not under `src/`; §4.5 of the spec fixes
the recognized role set as `{root, targets, snapshot, timestamp, mirrors}`,
with every other name parsing to the invalid value. -/
inductive Role where
  | kRoot
  | kTargets
  | kSnapshot
  | kTimestamp
  | kMirrors
  | kInvalid
deriving DecidableEq, Repr

/-- Modelled from the spec: the JSON-to-`Role` mapping (see `Role`). -/
def roleFromString (s : String) : Role :=
  if s = "root" then .kRoot
  else if s = "targets" then .kTargets
  else if s = "snapshot" then .kSnapshot
  else if s = "timestamp" then .kTimestamp
  else if s = "mirrors" then .kMirrors
  else .kInvalid

/-- Errors escaping the `from_json` overloads: `role_metadata_error` (and
the other trust errors), or a raw `json::exception` for the one `j.at`
performed outside the `try` block. -/
inductive JErr where
  | jsonExc
  | trust (e : TrustError)
deriving DecidableEq, Repr

/-- The v1 root role as parsed: `RoleBase` fields plus `m_keys` and
`m_roles`. -/
structure V1RootRole where
  version : Nat
  specVersion : String
  keys : Smap Key
  roles : Smap RoleKeys
deriving DecidableEq, Repr

/-- `v1::from_json(const json&, RootRole&)` (validate.cpp:762-864), with the
checks in source order: the `RoleBase` version read, `_type == "root"`,
`spec_version` stored then checked v1-compatible, `keys` and `roles`
decoded (all inside the `try`, every `json::exception` becoming
`role_metadata_error`); then every role name must parse to a valid `Role`,
the mandatory roles must all be present, and every role needs non-empty
`keyids`, a non-zero `threshold`, and only keyids declared in `keys`. -/
def v1FromJson (j : Json) : Except JErr V1RootRole :=
  match j.lookup? "signed" with
  | none => .error .jsonExc
  | some jSigned =>
    match (jSigned.lookup? "version").bind Json.asNat with
    | none => .error (.trust .roleMetadataError)
    | some version =>
      match (jSigned.lookup? "_type").bind Json.asStr with
      | none => .error (.trust .roleMetadataError)
      | some ty =>
        if ty = "root" then
          match (jSigned.lookup? "spec_version").bind Json.asStr with
          | none => .error (.trust .roleMetadataError)
          | some specVersion =>
            if v1SpecCompatible j then
              match (jSigned.lookup? "keys").bind (decodeObjMap decodeKey) with
              | none => .error (.trust .roleMetadataError)
              | some keys =>
                match (jSigned.lookup? "roles").bind (decodeObjMap decodeRoleKeys) with
                | none => .error (.trust .roleMetadataError)
                | some roles =>
                  if ∀ p ∈ roles, roleFromString p.1 ≠ Role.kInvalid then
                    if ∀ mr ∈ ["root", "snapshot", "targets", "timestamp"],
                        (Smap.find? roles mr).isSome then
                      if ∀ p ∈ roles, p.2.keyids ≠ [] ∧ p.2.threshold ≠ 0 ∧
                          ∀ kid ∈ p.2.keyids, (Smap.find? keys kid).isSome then
                        .ok ⟨version, specVersion, keys, roles⟩
                      else .error (.trust .roleMetadataError)
                    else .error (.trust .roleMetadataError)
                  else .error (.trust .roleMetadataError)
            else .error (.trust .roleMetadataError)
        else .error (.trust .roleMetadataError)

theorem bind_asStr_eq_some (o : Option Json) (s : String)
    (h : o.bind Json.asStr = some s) : o = some (.str s) := by
  cases o with
  | none => cases h
  | some v => cases v <;> simp [Json.asStr] at h <;> simp [h]


/-- C6: parsing v1 root metadata succeeds only if the signed object's
`_type` is `"root"`, its `spec_version` starts with `"1."` (and is the
stored spec version), the roles mapping includes the four mandatory roles,
every role name parses to a recognized role enum, and every role has
non-empty keyids, threshold at least 1 — so a role with threshold 0 is
rejected at parse time — and only keyids present in `keys`; and, given the
`signed` object exists, every parse failure is `role_metadata_error`. -/
theorem v1_parse_requirements (j : Json) :
    (∀ r, v1FromJson j = .ok r →
      (j.lookup? "signed").bind (fun s => (s.lookup? "_type").bind Json.asStr)
          = some "root" ∧
      (∃ sv, (j.lookup? "signed").bind (fun s => s.lookup? "spec_version")
          = some (.str sv) ∧ strStartsWith sv "1." = true ∧ r.specVersion = sv) ∧
      (∀ mr ∈ ["root", "snapshot", "targets", "timestamp"],
        (Smap.find? r.roles mr).isSome) ∧
      (∀ p ∈ r.roles, roleFromString p.1 ≠ Role.kInvalid) ∧
      (∀ p ∈ r.roles, p.2.keyids ≠ [] ∧ 1 ≤ p.2.threshold ∧
        ∀ kid ∈ p.2.keyids, (Smap.find? r.keys kid).isSome)) ∧
    (∀ e, v1FromJson j = .error e → (j.lookup? "signed").isSome →
      e = .trust .roleMetadataError) := by
  constructor
  · intro r h
    rw [v1FromJson] at h
    split at h
    · exact Except.noConfusion h
    next jSigned hSigned =>
      split at h
      · exact Except.noConfusion h
      next version hVersion =>
        split at h
        · exact Except.noConfusion h
        next ty hTy =>
          split at h
          case isFalse => exact Except.noConfusion h
          next hRoot =>
            split at h
            · exact Except.noConfusion h
            next specVersion hSpec =>
              split at h
              case isFalse => exact Except.noConfusion h
              next hCompat =>
                split at h
                · exact Except.noConfusion h
                next keys hKeys =>
                  split at h
                  · exact Except.noConfusion h
                  next roles hRoles =>
                    split at h
                    case isFalse => exact Except.noConfusion h
                    next hEnum =>
                      split at h
                      case isFalse => exact Except.noConfusion h
                      next hMand =>
                        split at h
                        case isFalse => exact Except.noConfusion h
                        next hPer =>
                          cases h
                          have hfield : (j.lookup? "signed").bind
                              (fun s => s.lookup? "spec_version")
                              = some (.str specVersion) := by
                            rw [hSigned]
                            exact bind_asStr_eq_some _ _ hSpec
                          refine ⟨?_, ⟨specVersion, hfield, ?_, rfl⟩, hMand, hEnum, ?_⟩
                          · rw [hSigned]
                            show (jSigned.lookup? "_type").bind Json.asStr = some "root"
                            rw [hTy, hRoot]
                          · obtain ⟨sv, hsv, hstart⟩ := (v1SpecCompatible_iff j).1 hCompat
                            rw [hfield] at hsv
                            cases hsv
                            exact hstart
                          · intro p hp
                            obtain ⟨h1, h2, h3⟩ := hPer p hp
                            exact ⟨h1, by omega, h3⟩
  · intro e h hsig
    rw [v1FromJson] at h
    split at h
    next hnone =>
      rw [hnone] at hsig
      simp at hsig
    next jSigned hSigned =>
      repeat' first
        | (cases h <;> rfl)
        | split at h

deriving instance DecidableEq for Except

/-- Closed witness for C6: a minimal valid v1 root document parses and
satisfies every requirement, and a failing document yields
`role_metadata_error`. -/
theorem v1_parse_requirements_witness :
    (v1FromJson (.obj [("signed", .obj
        [("_type", .str "root"),
         ("spec_version", .str "1.0.17"),
         ("version", .num 1),
         ("keys", .obj [("k1", .obj
           [("keytype", .str "ed25519"), ("scheme", .str "ed25519"),
            ("keyval", .str "aa")])]),
         ("roles", .obj
           [("root", .obj [("keyids", .arr [.str "k1"]), ("threshold", .num 1)]),
            ("snapshot", .obj [("keyids", .arr [.str "k1"]), ("threshold", .num 1)]),
            ("targets", .obj [("keyids", .arr [.str "k1"]), ("threshold", .num 1)]),
            ("timestamp", .obj [("keyids", .arr [.str "k1"]), ("threshold", .num 1)])])])])
      = .ok ⟨1, "1.0.17",
          [("k1", ⟨"ed25519", "ed25519", "aa"⟩)],
          [("root", ⟨["k1"], 1⟩), ("snapshot", ⟨["k1"], 1⟩),
           ("targets", ⟨["k1"], 1⟩), ("timestamp", ⟨["k1"], 1⟩)]⟩) ∧
    (∀ p ∈ ([("root", (⟨["k1"], 1⟩ : RoleKeys)), ("snapshot", ⟨["k1"], 1⟩),
        ("targets", ⟨["k1"], 1⟩), ("timestamp", ⟨["k1"], 1⟩)] : Smap RoleKeys),
      p.2.keyids ≠ [] ∧ 1 ≤ p.2.threshold ∧
        ∀ kid ∈ p.2.keyids,
          (Smap.find? ([("k1", ⟨"ed25519", "ed25519", "aa"⟩)] : Smap Key) kid).isSome) ∧
    (v1FromJson (.obj [("signed", .obj [("_type", .str "root")])])
        = .error (.trust .roleMetadataError)) := by
  refine ⟨by decide, ?_, ?_⟩
  · exact ((v1_parse_requirements (.obj [("signed", .obj
        [("_type", .str "root"),
         ("spec_version", .str "1.0.17"),
         ("version", .num 1),
         ("keys", .obj [("k1", .obj
           [("keytype", .str "ed25519"), ("scheme", .str "ed25519"),
            ("keyval", .str "aa")])]),
         ("roles", .obj
           [("root", .obj [("keyids", .arr [.str "k1"]), ("threshold", .num 1)]),
            ("snapshot", .obj [("keyids", .arr [.str "k1"]), ("threshold", .num 1)]),
            ("targets", .obj [("keyids", .arr [.str "k1"]), ("threshold", .num 1)]),
            ("timestamp", .obj [("keyids", .arr [.str "k1"]),
              ("threshold", .num 1)])])])])).1
      ⟨1, "1.0.17",
        [("k1", ⟨"ed25519", "ed25519", "aa"⟩)],
        [("root", ⟨["k1"], 1⟩), ("snapshot", ⟨["k1"], 1⟩),
         ("targets", ⟨["k1"], 1⟩), ("timestamp", ⟨["k1"], 1⟩)]⟩ (by decide)).2.2.2.2
  · have h2 := (v1_parse_requirements (.obj [("signed", .obj [("_type", .str "root")])])).2
      (JErr.trust TrustError.roleMetadataError) (by decide) (by decide)
    exact h2 ▸ (by decide)


/-- The v0.6 root role as parsed: `RoleBase` fields plus `m_delegations`. -/
structure V06RootRole where
  version : Nat
  specVersion : String
  delegations : Smap RolePubKeys
deriving DecidableEq, Repr

/-- `v06::from_json(const json&, RootRole&)` (validate.cpp:1009-1075), with
the checks in source order: the `RoleBase` version read, `type == "root"`,
`metadata_spec_version` stored then checked v0.6-compatible, `delegations`
decoded (all inside the `try`); then each delegation needs non-empty
`pubkeys` and a non-zero `threshold`, and the delegation key set must equal
exactly `{root, key_mgr}` — compared as the canonical sorted sequences,
which is what the `std::set` comparison performs. -/
def v06FromJson (j : Json) : Except JErr V06RootRole :=
  match j.lookup? "signed" with
  | none => .error .jsonExc
  | some jSigned =>
    match (jSigned.lookup? "version").bind Json.asNat with
    | none => .error (.trust .roleMetadataError)
    | some version =>
      match (jSigned.lookup? "type").bind Json.asStr with
      | none => .error (.trust .roleMetadataError)
      | some ty =>
        if ty = "root" then
          match (jSigned.lookup? "metadata_spec_version").bind Json.asStr with
          | none => .error (.trust .roleMetadataError)
          | some specVersion =>
            if v06SpecCompatible j then
              match (jSigned.lookup? "delegations").bind (decodeObjMap decodeRolePubKeys) with
              | none => .error (.trust .roleMetadataError)
              | some dels =>
                if ∀ p ∈ dels, p.2.pubkeys ≠ [] ∧ p.2.threshold ≠ 0 then
                  if dels.map Prod.fst = ["key_mgr", "root"] then
                    .ok ⟨version, specVersion, dels⟩
                  else .error (.trust .roleMetadataError)
                else .error (.trust .roleMetadataError)
            else .error (.trust .roleMetadataError)
        else .error (.trust .roleMetadataError)

theorem map_fst_pair_inv {α : Type} (dels : List (String × α))
    (h : dels.map Prod.fst = ["key_mgr", "root"]) :
    (Smap.find? dels "root").isSome ∧ (Smap.find? dels "key_mgr").isSome ∧
      ∀ p ∈ dels, p.1 = "root" ∨ p.1 = "key_mgr" := by
  match dels, h with
  | [(k1, v1), (k2, v2)], h =>
    simp only [List.map_cons, List.map_nil, List.cons.injEq, and_true] at h
    obtain ⟨h1, h2⟩ := h
    subst h1
    subst h2
    refine ⟨?_, ?_, ?_⟩
    · rw [Smap.find?, if_neg (by decide), Smap.find?, if_pos rfl]
      rfl
    · rw [Smap.find?, if_pos rfl]
      rfl
    · intro p hp
      rcases List.mem_cons.1 hp with rfl | hp'
      · exact Or.inr rfl
      · rcases List.mem_cons.1 hp' with rfl | hp''
        · exact Or.inl rfl
        · cases hp''

/-- C7: parsing v0.6 root metadata succeeds only if the signed object's
`type` is `"root"`, its `metadata_spec_version` starts with `"0.6."` (and
is the stored spec version), the delegation keys are exactly
`{root, key_mgr}`, and each delegation has non-empty `pubkeys` and
threshold at least 1; and, given the `signed` object exists, every parse
failure is `role_metadata_error`. -/
theorem v06_parse_requirements (j : Json) :
    (∀ r, v06FromJson j = .ok r →
      (j.lookup? "signed").bind (fun s => (s.lookup? "type").bind Json.asStr)
          = some "root" ∧
      (∃ sv, (j.lookup? "signed").bind (fun s => s.lookup? "metadata_spec_version")
          = some (.str sv) ∧ strStartsWith sv "0.6." = true ∧ r.specVersion = sv) ∧
      (Smap.find? r.delegations "root").isSome ∧
      (Smap.find? r.delegations "key_mgr").isSome ∧
      (∀ p ∈ r.delegations, p.1 = "root" ∨ p.1 = "key_mgr") ∧
      (∀ p ∈ r.delegations, p.2.pubkeys ≠ [] ∧ 1 ≤ p.2.threshold)) ∧
    (∀ e, v06FromJson j = .error e → (j.lookup? "signed").isSome →
      e = .trust .roleMetadataError) := by
  constructor
  · intro r h
    rw [v06FromJson] at h
    split at h
    · exact Except.noConfusion h
    next jSigned hSigned =>
      split at h
      · exact Except.noConfusion h
      next version hVersion =>
        split at h
        · exact Except.noConfusion h
        next ty hTy =>
          split at h
          case isFalse => exact Except.noConfusion h
          next hRoot =>
            split at h
            · exact Except.noConfusion h
            next specVersion hSpec =>
              split at h
              case isFalse => exact Except.noConfusion h
              next hCompat =>
                split at h
                · exact Except.noConfusion h
                next dels hDels =>
                  split at h
                  case isFalse => exact Except.noConfusion h
                  next hPer =>
                    split at h
                    case isFalse => exact Except.noConfusion h
                    next hKeys =>
                      cases h
                      have hfield : (j.lookup? "signed").bind
                          (fun s => s.lookup? "metadata_spec_version")
                          = some (.str specVersion) := by
                        rw [hSigned]
                        exact bind_asStr_eq_some _ _ hSpec
                      obtain ⟨hfr, hfk, hmem⟩ := map_fst_pair_inv dels hKeys
                      refine ⟨?_, ⟨specVersion, hfield, ?_, rfl⟩, hfr, hfk, hmem, ?_⟩
                      · rw [hSigned]
                        show (jSigned.lookup? "type").bind Json.asStr = some "root"
                        rw [hTy, hRoot]
                      · obtain ⟨sv, hsv, hstart⟩ := (v06SpecCompatible_iff j).1 hCompat
                        rw [hfield] at hsv
                        cases hsv
                        exact hstart
                      · intro p hp
                        obtain ⟨h1, h2⟩ := hPer p hp
                        exact ⟨h1, by omega⟩
  · intro e h hsig
    rw [v06FromJson] at h
    split at h
    next hnone =>
      rw [hnone] at hsig
      simp at hsig
    next jSigned hSigned =>
      repeat' first
        | (cases h <;> rfl)
        | split at h

/-- Closed witness for C7: a minimal valid v0.6 root document parses and
satisfies every requirement, and a document with an extra delegation is
rejected with `role_metadata_error`. -/
theorem v06_parse_requirements_witness :
    (v06FromJson (.obj [("signed", .obj
        [("type", .str "root"),
         ("metadata_spec_version", .str "0.6.0"),
         ("version", .num 1),
         ("delegations", .obj
           [("root", .obj [("pubkeys", .arr [.str "aa"]), ("threshold", .num 1)]),
            ("key_mgr", .obj [("pubkeys", .arr [.str "bb"]), ("threshold", .num 1)])])])])
      = .ok ⟨1, "0.6.0", [("key_mgr", ⟨["bb"], 1⟩), ("root", ⟨["aa"], 1⟩)]⟩) ∧
    (∀ p ∈ ([("key_mgr", (⟨["bb"], 1⟩ : RolePubKeys)), ("root", ⟨["aa"], 1⟩)] :
        Smap RolePubKeys), p.2.pubkeys ≠ [] ∧ 1 ≤ p.2.threshold) ∧
    (v06FromJson (.obj [("signed", .obj [("type", .str "root")])])
        = .error (.trust .roleMetadataError)) := by
  refine ⟨by decide, ?_, ?_⟩
  · exact ((v06_parse_requirements (.obj [("signed", .obj
        [("type", .str "root"),
         ("metadata_spec_version", .str "0.6.0"),
         ("version", .num 1),
         ("delegations", .obj
           [("root", .obj [("pubkeys", .arr [.str "aa"]), ("threshold", .num 1)]),
            ("key_mgr", .obj [("pubkeys", .arr [.str "bb"]),
              ("threshold", .num 1)])])])])).1
      ⟨1, "0.6.0", [("key_mgr", ⟨["bb"], 1⟩), ("root", ⟨["aa"], 1⟩)]⟩ (by decide)).2.2.2.2.2
  · have h2 := (v06_parse_requirements (.obj [("signed", .obj [("type", .str "root")])])).2
      (JErr.trust TrustError.roleMetadataError) (by decide) (by decide)
    exact h2 ▸ (by decide)

end Validate
